import Mathlib

/-!
Shallow embedding of `optimize_schedule` (src/scheduling.py) from the
NurseShiftly repository, together with theorems settling the frozen claims
about it.

`optimize_schedule` builds a mixed-integer linear program with PuLP:
binary assignment variables `x[n][s]`, continuous `o[n]` (overtime, lower
bound 0) and `u[s]` (unmet demand, lower bound 0), a minimization
objective, and linear constraints (coverage, availability, skill, hour
limits, and optional pinning constraints).  We embed the model that the
function constructs as explicit data (`MILP`): the entity index, the list
of objective terms, and the list of constraints.  Solutions are explicit
valuations of the decision variables, and `accepts` states that a
valuation satisfies the variable bounds and every emitted constraint.

PuLP semantics used by the embedding:
* multiplying a variable by the scalar `0` yields an *empty* affine
  expression (PuLP's `LpAffineExpression.__mul__` only adds terms when the
  scalar is nonzero), so terms with coefficient 0 never enter the
  objective expression;
* Python dicts built by repeated insertion let later entries overwrite
  earlier ones; lookups with `.get(k, d)` default to `d`.
-/

/-- One row of the `nurses` table: `nurse_id`, `max_hours_per_week`,
`skill_level`. -/
structure NurseRow where
  nurse_id : String
  max_hours_per_week : ℚ
  skill_level : String
deriving DecidableEq

/-- One row of the `shifts` table: `shift_id`, `hours`, `demand`,
`required_skill`. -/
structure ShiftRow where
  shift_id : String
  hours : ℚ
  demand : ℚ
  required_skill : String
deriving DecidableEq

/-- One row of the `availability` table. The raw `available` cell is a
number (CSV `0`/`1`); the code coerces it with Python `int(...)`. -/
structure AvailabilityRow where
  nurse_id : String
  shift_id : String
  available : ℚ
deriving DecidableEq

/-- One row of the optional `preferences` table. -/
structure PreferenceRow where
  nurse_id : String
  shift_id : String
  score : ℚ
deriving DecidableEq

/-- The arguments of `optimize_schedule`, with the Python defaults. -/
structure Inputs where
  nurses_df : List NurseRow
  shifts_df : List ShiftRow
  availability_df : List AvailabilityRow
  allow_overtime : Bool := true
  overtime_cost : ℚ := 10
  allow_understaff : Bool := false
  understaff_penalty : ℚ := 50
  preferences_df : Option (List PreferenceRow) := none
  preference_weight : ℚ := 0
deriving DecidableEq

/-- Python `int(x)` on a numeric value: truncation toward zero. -/
def pyIntTrunc (q : ℚ) : ℤ := if 0 ≤ q then ⌊q⌋ else ⌈q⌉

/-- Python `str.upper()` (faithful on ASCII data, which is all the skill
comparison in the code relies on). -/
def pyUpper (s : String) : String := ⟨s.data.map Char.toUpper⟩

/-- Python `pandas.Series.unique()`: deduplication keeping first occurrences in
order. -/
def pyUnique (l : List String) : List String :=
  l.foldl (fun acc x => if x ∈ acc then acc else acc ++ [x]) []

/-- Lookup in an association list read as a Python dict built by repeated
insertion: the *last* entry for a key wins. -/
def dictGet {α : Type} (l : List (String × α)) (k : String) : Option α :=
  ((l.filter fun p => p.1 == k).getLast?).map (·.2)

/-- Variant of `dictGet` for dicts keyed by a (nurse, shift) pair. -/
def dictGetP {α : Type} (l : List ((String × String) × α)) (k : String × String) :
    Option α :=
  ((l.filter fun p => p.1.1 == k.1 && p.1.2 == k.2).getLast?).map (·.2)

/-- Embeds `nurses = nurses_df["nurse_id"].unique()`. -/
def entityNurses (inp : Inputs) : List String :=
  pyUnique (inp.nurses_df.map (·.nurse_id))

/-- Embeds `shifts = shifts_df["shift_id"].unique()`. -/
def entityShifts (inp : Inputs) : List String :=
  pyUnique (inp.shifts_df.map (·.shift_id))

/-- Embeds `shift_hours = dict(zip(shifts_df["shift_id"], shifts_df["hours"]))`;
the default is never consulted because the keys looked up come from the
same table. -/
def shift_hours (inp : Inputs) (s : String) : ℚ :=
  (dictGet (inp.shifts_df.map fun r => (r.shift_id, r.hours)) s).getD 0

/-- Embeds `shift_demand = dict(zip(shifts_df["shift_id"], shifts_df["demand"]))`. -/
def shift_demand (inp : Inputs) (s : String) : ℚ :=
  (dictGet (inp.shifts_df.map fun r => (r.shift_id, r.demand)) s).getD 0

/-- Embeds `shift_skill = dict(zip(shifts_df["shift_id"], shifts_df["required_skill"]))`. -/
def shift_skill (inp : Inputs) (s : String) : String :=
  (dictGet (inp.shifts_df.map fun r => (r.shift_id, r.required_skill)) s).getD ""

/-- Embeds `nurse_max_hours = dict(zip(nurses_df["nurse_id"], nurses_df["max_hours_per_week"]))`. -/
def nurse_max_hours (inp : Inputs) (n : String) : ℚ :=
  (dictGet (inp.nurses_df.map fun r => (r.nurse_id, r.max_hours_per_week)) n).getD 0

/-- Embeds `nurse_skill = dict(zip(nurses_df["nurse_id"], nurses_df["skill_level"]))`. -/
def nurse_skill (inp : Inputs) (n : String) : String :=
  (dictGet (inp.nurses_df.map fun r => (r.nurse_id, r.skill_level)) n).getD ""

/-- Embeds `availability_lookup[(row.nurse_id, row.shift_id)] = int(row.available)`,
one insertion per row of `availability_df`. -/
def availability_lookup (inp : Inputs) : List ((String × String) × ℤ) :=
  inp.availability_df.map fun r => ((r.nurse_id, r.shift_id), pyIntTrunc r.available)

/-- Embeds `availability_lookup.get((n, s), 0)`. -/
def availGet (inp : Inputs) (n s : String) : ℤ :=
  (dictGetP (availability_lookup inp) (n, s)).getD 0

/-- Embeds `preference_lookup`, built only when `preferences_df is not None and
not preferences_df.empty and preference_weight != 0`. -/
def preference_lookup (inp : Inputs) : List ((String × String) × ℚ) :=
  match inp.preferences_df with
  | none => []
  | some pdf =>
      if pdf.isEmpty then []
      else if inp.preference_weight = 0 then []
      else pdf.map fun r => ((r.nurse_id, r.shift_id), r.score)

/-- Embeds `preference_lookup.get((n, s), 0.0)`. -/
def prefGet (inp : Inputs) (n s : String) : ℚ :=
  (dictGetP (preference_lookup inp) (n, s)).getD 0

/-- The guard `shift_skill[s].upper() == "ICU" and nurse_skill[n].upper() != "ICU"`
deciding whether the skill-exclusion constraint is emitted. -/
def skillCond (required nurseLevel : String) : Bool :=
  pyUpper required == "ICU" && !(pyUpper nurseLevel == "ICU")

/-- A constraint emitted by `optimize_schedule`, carrying the data the
code bakes into it. -/
inductive Constr where
  | coverage (ns : List String) (s : String) (d : ℚ)
  | noUnderstaff (s : String)
  | availability (n s : String) (a : ℤ)
  | skill (n s : String)
  | hourLimit (terms : List (String × ℚ)) (n : String) (maxh : ℚ)
  | noOvertime (n : String)
deriving DecidableEq

/-- One term of the objective expression: a coefficient attached to one
decision variable. -/
inductive ObjTerm where
  | overtime (c : ℚ) (n : String)
  | unmet (c : ℚ) (s : String)
  | assign (c : ℚ) (n s : String)
deriving DecidableEq

/-- The objective expression
`lpSum(overtime_cost * o[n]) + lpSum(understaff_penalty * u[s])
 - lpSum(preference_weight * preference_lookup.get((n,s), 0.0) * x[n][s])`.
PuLP drops a variable whose scalar multiplier is `0` (the expression is
empty), so a term enters the expression only when its coefficient is
nonzero. -/
def objectiveOf (inp : Inputs) : List ObjTerm :=
  ((entityNurses inp).filterMap fun n =>
    if inp.overtime_cost = 0 then none
    else some (ObjTerm.overtime inp.overtime_cost n))
  ++ ((entityShifts inp).filterMap fun s =>
    if inp.understaff_penalty = 0 then none
    else some (ObjTerm.unmet inp.understaff_penalty s))
  ++ ((entityNurses inp).flatMap fun n => (entityShifts inp).filterMap fun s =>
    if inp.preference_weight * prefGet inp n s = 0 then none
    else some (ObjTerm.assign (-(inp.preference_weight * prefGet inp n s)) n s))

/-- The shift-coverage loop: per shift the coverage constraint, plus the
`u[s] == 0` pin when understaffing is disallowed. -/
def coverageConstraints (inp : Inputs) : List Constr :=
  (entityShifts inp).flatMap fun s =>
    Constr.coverage (entityNurses inp) s (shift_demand inp s)
      :: (if inp.allow_understaff then [] else [Constr.noUnderstaff s])

/-- The availability-and-skill loop: per (nurse, shift) pair the
availability constraint `x[n][s] <= avail`, plus `x[n][s] == 0` when the
ICU guard fires. -/
def availSkillConstraints (inp : Inputs) : List Constr :=
  (entityNurses inp).flatMap fun n => (entityShifts inp).flatMap fun s =>
    Constr.availability n s (availGet inp n s)
      :: (if skillCond (shift_skill inp s) (nurse_skill inp n)
          then [Constr.skill n s] else [])

/-- The hour-limit loop: per nurse the weekly-hours constraint, plus the
`o[n] == 0` pin when overtime is disallowed. -/
def hourConstraints (inp : Inputs) : List Constr :=
  (entityNurses inp).flatMap fun n =>
    Constr.hourLimit ((entityShifts inp).map fun s => (s, shift_hours inp s)) n
        (nurse_max_hours inp n)
      :: (if inp.allow_overtime then [] else [Constr.noOvertime n])

/-- The model `optimize_schedule` hands to the solver: entity index,
objective terms, and constraints in emission order. -/
structure MILP where
  nurses : List String
  shifts : List String
  objective : List ObjTerm
  constraints : List Constr
deriving DecidableEq

/-- The model-construction part of `optimize_schedule` (lines 28-90 of
src/scheduling.py). -/
def optimize_schedule_model (inp : Inputs) : MILP :=
  { nurses := entityNurses inp
    shifts := entityShifts inp
    objective := objectiveOf inp
    constraints :=
      coverageConstraints inp ++ availSkillConstraints inp ++ hourConstraints inp }

/-- A valuation of the decision variables, as reported by the solver. -/
structure Solution where
  x : String → String → ℚ
  o : String → ℚ
  u : String → ℚ

/-- Satisfaction of a single emitted constraint. -/
def constrSat (σ : Solution) : Constr → Prop
  | .coverage ns s d => d ≤ (ns.map fun n => σ.x n s).sum + σ.u s
  | .noUnderstaff s => σ.u s = 0
  | .availability n s a => σ.x n s ≤ (a : ℚ)
  | .skill n s => σ.x n s = 0
  | .hourLimit terms n maxh => (terms.map fun p => p.2 * σ.x n p.1).sum ≤ maxh + σ.o n
  | .noOvertime n => σ.o n = 0

instance (σ : Solution) (c : Constr) : Decidable (constrSat σ c) := by
  cases c <;> · simp only [constrSat]; infer_instance

/-- A solution the model accepts: the declared variable bounds
(`x` binary in `[0,1]`, `o` and `u` with lower bound `0`) together with
every emitted constraint. -/
def accepts (m : MILP) (σ : Solution) : Prop :=
  (∀ n ∈ m.nurses, ∀ s ∈ m.shifts, σ.x n s = 0 ∨ σ.x n s = 1) ∧
  (∀ n ∈ m.nurses, 0 ≤ σ.o n) ∧
  (∀ s ∈ m.shifts, 0 ≤ σ.u s) ∧
  (∀ c ∈ m.constraints, constrSat σ c)

instance (m : MILP) (σ : Solution) : Decidable (accepts m σ) := by
  unfold accepts; infer_instance

/-- Value of one objective term under a valuation. -/
def termValue (σ : Solution) : ObjTerm → ℚ
  | .overtime c n => c * σ.o n
  | .unmet c s => c * σ.u s
  | .assign c n s => c * σ.x n s

/-- Value of the objective expression under a valuation. -/
def objValue (m : MILP) (σ : Solution) : ℚ := (m.objective.map (termValue σ)).sum

/-- The result-decoding loop (lines 98-103): one record per (nurse, shift)
pair, `assigned = int(pulp.value(x[n][s]))`. -/
def extractAssignments (m : MILP) (σ : Solution) : List (String × String × ℤ) :=
  m.nurses.flatMap fun n => m.shifts.map fun s => (n, s, pyIntTrunc (σ.x n s))

/-- Embeds `overtime_dict = {n: float(pulp.value(o[n])) for n in nurses}` (line 106). -/
def extractOvertime (m : MILP) (σ : Solution) : List (String × ℚ) :=
  m.nurses.map fun n => (n, σ.o n)

/-- Embeds `unmet_demand = {s: float(pulp.value(u[s])) for s in shifts}` (line 107). -/
def extractUnmet (m : MILP) (σ : Solution) : List (String × ℚ) :=
  m.shifts.map fun s => (s, σ.u s)

/-- Modelled from the spec: the Result Decoder the spec describes (§4.5),
which is absent from the code — it rounds an assignment value to the
nearest integer and signals a decoding error whenever the value falls
outside `[-ε, 1+ε]`. -/
def decodeAssignSpec (eps q : ℚ) : Option ℤ :=
  if q < -eps ∨ 1 + eps < q then none else some (round q)

/-! ### Helper lemmas -/

lemma mem_ite_nil_r {α : Type} {p : Prop} [Decidable p] {a : α} {l : List α} :
    a ∈ (if p then l else []) ↔ p ∧ a ∈ l := by
  split <;> simp_all

lemma mem_ite_nil_l {α : Type} {p : Prop} [Decidable p] {a : α} {l : List α} :
    a ∈ (if p then [] else l) ↔ ¬p ∧ a ∈ l := by
  split <;> simp_all

lemma pyUnique_foldl_mem {l : List String} {acc : List String} {x : String}
    (h : x ∈ l.foldl (fun acc x => if x ∈ acc then acc else acc ++ [x]) acc) :
    x ∈ acc ∨ x ∈ l := by
  induction l generalizing acc with
  | nil => exact Or.inl h
  | cons a t ih =>
      rcases @ih (if a ∈ acc then acc else acc ++ [a]) h with h' | h'
      · by_cases ha : a ∈ acc
        · rw [if_pos ha] at h'; exact Or.inl h'
        · rw [if_neg ha, List.mem_append, List.mem_singleton] at h'
          rcases h' with h' | rfl
          · exact Or.inl h'
          · exact Or.inr (List.mem_cons_self _ _)
      · exact Or.inr (List.mem_cons_of_mem _ h')

lemma pyUnique_subset {l : List String} {x : String} (h : x ∈ pyUnique l) : x ∈ l := by
  rcases pyUnique_foldl_mem h with h' | h'
  · simp at h'
  · exact h'

lemma mem_entityNurses {inp : Inputs} {n : String} (h : n ∈ entityNurses inp) :
    n ∈ inp.nurses_df.map (·.nurse_id) := pyUnique_subset h

lemma mem_entityShifts {inp : Inputs} {s : String} (h : s ∈ entityShifts inp) :
    s ∈ inp.shifts_df.map (·.shift_id) := pyUnique_subset h

lemma coverage_mem (inp : Inputs) {s : String} (hs : s ∈ entityShifts inp) :
    Constr.coverage (entityNurses inp) s (shift_demand inp s) ∈
      (optimize_schedule_model inp).constraints := by
  simp only [optimize_schedule_model, List.mem_append]
  exact Or.inl <| Or.inl <| List.mem_flatMap.mpr ⟨s, hs, List.mem_cons_self _ _⟩

lemma noUnderstaff_mem (inp : Inputs) {s : String} (hs : s ∈ entityShifts inp)
    (h : inp.allow_understaff = false) :
    Constr.noUnderstaff s ∈ (optimize_schedule_model inp).constraints := by
  simp only [optimize_schedule_model, List.mem_append]
  refine Or.inl <| Or.inl <| List.mem_flatMap.mpr ⟨s, hs, ?_⟩
  simp [h]

lemma availability_mem (inp : Inputs) {n s : String}
    (hn : n ∈ entityNurses inp) (hs : s ∈ entityShifts inp) :
    Constr.availability n s (availGet inp n s) ∈
      (optimize_schedule_model inp).constraints := by
  simp only [optimize_schedule_model, List.mem_append]
  exact Or.inl <| Or.inr <| List.mem_flatMap.mpr
    ⟨n, hn, List.mem_flatMap.mpr ⟨s, hs, List.mem_cons_self _ _⟩⟩

lemma skill_mem (inp : Inputs) {n s : String}
    (hn : n ∈ entityNurses inp) (hs : s ∈ entityShifts inp)
    (h : skillCond (shift_skill inp s) (nurse_skill inp n) = true) :
    Constr.skill n s ∈ (optimize_schedule_model inp).constraints := by
  simp only [optimize_schedule_model, List.mem_append]
  refine Or.inl <| Or.inr <| List.mem_flatMap.mpr
    ⟨n, hn, List.mem_flatMap.mpr ⟨s, hs, ?_⟩⟩
  simp [h]

lemma hourLimit_mem (inp : Inputs) {n : String} (hn : n ∈ entityNurses inp) :
    Constr.hourLimit ((entityShifts inp).map fun s => (s, shift_hours inp s)) n
        (nurse_max_hours inp n) ∈ (optimize_schedule_model inp).constraints := by
  simp only [optimize_schedule_model, List.mem_append]
  exact Or.inr <| List.mem_flatMap.mpr ⟨n, hn, List.mem_cons_self _ _⟩

lemma noOvertime_mem (inp : Inputs) {n : String} (hn : n ∈ entityNurses inp)
    (h : inp.allow_overtime = false) :
    Constr.noOvertime n ∈ (optimize_schedule_model inp).constraints := by
  simp only [optimize_schedule_model, List.mem_append]
  refine Or.inr <| List.mem_flatMap.mpr ⟨n, hn, ?_⟩
  simp [h]

lemma skill_mem_iff (inp : Inputs) (n s : String) :
    Constr.skill n s ∈ (optimize_schedule_model inp).constraints ↔
      n ∈ entityNurses inp ∧ s ∈ entityShifts inp ∧
        skillCond (shift_skill inp s) (nurse_skill inp n) = true := by
  constructor
  · intro h
    simp only [optimize_schedule_model, List.mem_append, coverageConstraints,
      availSkillConstraints, hourConstraints, List.mem_flatMap, List.mem_cons,
      mem_ite_nil_r, mem_ite_nil_l, List.mem_singleton, List.not_mem_nil] at h
    rcases h with (⟨s', _, h⟩ | ⟨n', hn', s', hs', h⟩) | ⟨n', _, h⟩
    · rcases h with h | ⟨_, h⟩ <;> simp_all
    · rcases h with h | ⟨hcond, h⟩
      · simp_all
      · obtain ⟨rfl, rfl⟩ : n = n' ∧ s = s' := by
          rw [Constr.skill.injEq] at h; exact h.resolve_right id
        exact ⟨hn', hs', hcond⟩
    · rcases h with h | ⟨_, h⟩ <;> simp_all
  · rintro ⟨hn, hs, hcond⟩
    exact skill_mem inp hn hs hcond

lemma dictGetP_eq_some {α : Type} {l : List ((String × String) × α)}
    {k : String × String} {v : α} (h : dictGetP l k = some v) :
    ∃ p ∈ l, p.1 = k ∧ p.2 = v := by
  unfold dictGetP at h
  rcases Option.map_eq_some.mp h with ⟨p, hp, hv⟩
  have hmem := List.mem_of_getLast?_eq_some hp
  rw [List.mem_filter] at hmem
  refine ⟨p, hmem.1, ?_, hv⟩
  have := hmem.2
  rw [Bool.and_eq_true, beq_iff_eq, beq_iff_eq] at this
  exact Prod.ext this.1 this.2

lemma dictGetP_eq_none {α : Type} {l : List ((String × String) × α)}
    {k : String × String} (h : ∀ p ∈ l, p.1 ≠ k) : dictGetP l k = none := by
  unfold dictGetP
  have : l.filter (fun p => p.1.1 == k.1 && p.1.2 == k.2) = [] := by
    rw [List.filter_eq_nil_iff]
    intro p hp
    intro hb
    rw [Bool.and_eq_true, beq_iff_eq, beq_iff_eq] at hb
    exact h p hp (Prod.ext hb.1 hb.2)
  rw [this]
  rfl

lemma dictGetP_append_single {α : Type} {l : List ((String × String) × α)}
    {e : (String × String) × α} {k : String × String} (h : e.1 ≠ k) :
    dictGetP (l ++ [e]) k = dictGetP l k := by
  unfold dictGetP
  rw [List.filter_append]
  have : [e].filter (fun p => p.1.1 == k.1 && p.1.2 == k.2) = [] := by
    rw [List.filter_eq_nil_iff]
    intro p hp hb
    rw [List.mem_singleton] at hp
    subst hp
    rw [Bool.and_eq_true, beq_iff_eq, beq_iff_eq] at hb
    exact h (Prod.ext hb.1 hb.2)
  rw [this, List.append_nil]

lemma toUpper_toUpper (c : Char) : (Char.toUpper c).toUpper = Char.toUpper c := by
  show Char.toUpper (Char.toUpper c) = Char.toUpper c
  unfold Char.toUpper
  by_cases h : c.toNat ≥ 97 ∧ c.toNat ≤ 122
  · rw [if_pos h]
    obtain ⟨h1, h2⟩ := h
    have h3 : 65 ≤ c.toNat - 32 := by omega
    have h4 : c.toNat - 32 ≤ 90 := by omega
    generalize c.toNat - 32 = m at h3 h4
    interval_cases m <;> decide
  · rw [if_neg h, if_neg h]

lemma pyUpper_idem (s : String) : pyUpper (pyUpper s) = pyUpper s := by
  show String.mk ((s.data.map Char.toUpper).map Char.toUpper)
      = String.mk (s.data.map Char.toUpper)
  rw [List.map_map]
  exact congrArg String.mk (List.map_congr_left fun c _ => toUpper_toUpper c)

lemma skillCond_upper (r k : String) :
    skillCond (pyUpper r) (pyUpper k) = skillCond r k := by
  unfold skillCond
  rw [pyUpper_idem, pyUpper_idem]

lemma skillCond_iff {r k : String} :
    skillCond r k = true ↔ pyUpper r = "ICU" ∧ pyUpper k ≠ "ICU" := by
  unfold skillCond
  rw [Bool.and_eq_true, beq_iff_eq, Bool.not_eq_true', beq_eq_false_iff_ne]

lemma sum_filterMap_eq_sum_map {α : Type} (l : List α) (p : α → Prop)
    [DecidablePred p] (g : α → ℚ) (h : ∀ a ∈ l, p a → g a = 0) :
    (l.filterMap fun a => if p a then none else some (g a)).sum = (l.map g).sum := by
  induction l with
  | nil => rfl
  | cons a t ih =>
      rw [List.filterMap_cons, List.map_cons, List.sum_cons]
      by_cases hp : p a
      · rw [if_pos hp, h a (List.mem_cons_self _ _) hp, zero_add]
        exact ih fun b hb => h b (List.mem_cons_of_mem _ hb)
      · rw [if_neg hp, List.sum_cons]
        rw [ih fun b hb => h b (List.mem_cons_of_mem _ hb)]

/-! ### Concrete instances used by witnesses and counterexamples -/

/-- The spec's scenario: two nurses, two shifts, full availability,
overtime and understaffing disallowed. -/
def inpW : Inputs :=
  { nurses_df := [⟨"A", 40, "GENERAL"⟩, ⟨"B", 40, "ICU"⟩]
    shifts_df := [⟨"S1", 8, 1, "GENERAL"⟩, ⟨"S2", 8, 1, "ICU"⟩]
    availability_df := [⟨"A", "S1", 1⟩, ⟨"A", "S2", 1⟩, ⟨"B", "S1", 1⟩, ⟨"B", "S2", 1⟩]
    allow_overtime := false }

/-- The expected solution of the scenario: A works S1, B works S2. -/
def σW : Solution :=
  { x := fun n s => if (n = "A" ∧ s = "S1") ∨ (n = "B" ∧ s = "S2") then 1 else 0
    o := fun _ => 0
    u := fun _ => 0 }

lemma objW_eq : objectiveOf inpW =
    [.overtime 10 "A", .overtime 10 "B", .unmet 50 "S1", .unmet 50 "S2"] := by
  simp [objectiveOf, entityNurses, entityShifts, pyUnique, inpW, prefGet,
    preference_lookup, dictGetP]

/-- The model built from `inpW`, evaluated. -/
lemma modelW_eq : optimize_schedule_model inpW =
    { nurses := ["A", "B"], shifts := ["S1", "S2"]
      objective := [.overtime 10 "A", .overtime 10 "B", .unmet 50 "S1", .unmet 50 "S2"]
      constraints :=
        [.coverage ["A", "B"] "S1" 1, .noUnderstaff "S1",
         .coverage ["A", "B"] "S2" 1, .noUnderstaff "S2",
         .availability "A" "S1" 1, .availability "A" "S2" 1, .skill "A" "S2",
         .availability "B" "S1" 1, .availability "B" "S2" 1,
         .hourLimit [("S1", 8), ("S2", 8)] "A" 40, .noOvertime "A",
         .hourLimit [("S1", 8), ("S2", 8)] "B" 40, .noOvertime "B"] } := by
  unfold optimize_schedule_model
  rw [objW_eq]
  rfl

lemma acceptsW : accepts (optimize_schedule_model inpW) σW := by
  rw [modelW_eq]
  simp [accepts, constrSat, σW]
  norm_num

/-! ### Claim theorems -/

/-- Claim C1: in every solution accepted by the model, the assignment
variable for (n, s) can be 1 only if the availability table contains an
entry for (n, s) whose coerced value marks it available; a pair with no
entry is treated as not available, so its assignment is forced to 0. -/
theorem availability_invariant_C1 (inp : Inputs) (σ : Solution)
    (h : accepts (optimize_schedule_model inp) σ)
    (n : String) (hn : n ∈ entityNurses inp) (s : String) (hs : s ∈ entityShifts inp) :
    (σ.x n s = 1 → ∃ r ∈ inp.availability_df,
        r.nurse_id = n ∧ r.shift_id = s ∧ 1 ≤ pyIntTrunc r.available)
    ∧ ((∀ r ∈ inp.availability_df, ¬(r.nurse_id = n ∧ r.shift_id = s)) → σ.x n s = 0) := by
  obtain ⟨hbin, -, -, hcon⟩ := h
  have hsat := hcon _ (availability_mem inp hn hs)
  simp only [constrSat] at hsat
  constructor
  · intro hx1
    rw [hx1] at hsat
    have hint : 1 ≤ availGet inp n s := by exact_mod_cast hsat
    unfold availGet at hint
    cases hg : dictGetP (availability_lookup inp) (n, s) with
    | none => rw [hg, Option.getD_none] at hint; omega
    | some v =>
        rw [hg, Option.getD_some] at hint
        obtain ⟨p, hp, hpk, hpv⟩ := dictGetP_eq_some hg
        unfold availability_lookup at hp
        rw [List.mem_map] at hp
        obtain ⟨r, hr, rfl⟩ := hp
        rw [Prod.mk.injEq] at hpk
        exact ⟨r, hr, hpk.1, hpk.2, hint.trans_eq hpv.symm⟩
  · intro habs
    have hnone : dictGetP (availability_lookup inp) (n, s) = none := by
      apply dictGetP_eq_none
      intro p hp
      unfold availability_lookup at hp
      rw [List.mem_map] at hp
      obtain ⟨r, hr, rfl⟩ := hp
      intro hk
      rw [Prod.mk.injEq] at hk
      exact habs r hr ⟨hk.1, hk.2⟩
    have hz : availGet inp n s = 0 := by unfold availGet; rw [hnone]; rfl
    rw [hz] at hsat
    rcases hbin n hn s hs with h0 | h1
    · exact h0
    · rw [h1] at hsat; norm_num at hsat

theorem availability_invariant_C1_witness :
    accepts (optimize_schedule_model inpW) σW ∧
    ((σW.x "A" "S1" = 1 → ∃ r ∈ inpW.availability_df,
        r.nurse_id = "A" ∧ r.shift_id = "S1" ∧ 1 ≤ pyIntTrunc r.available)
     ∧ ((∀ r ∈ inpW.availability_df, ¬(r.nurse_id = "A" ∧ r.shift_id = "S1")) →
        σW.x "A" "S1" = 0)) :=
  ⟨acceptsW, availability_invariant_C1 inpW σW acceptsW
    "A" (by decide) "S1" (by decide)⟩

/-- Claim C5: in every accepted solution, if `allow_overtime` is false
then every nurse's overtime variable is 0, and if `allow_understaff` is
false then every shift's unmet-demand variable is 0. -/
theorem pinning_C5 (inp : Inputs) (σ : Solution)
    (h : accepts (optimize_schedule_model inp) σ) :
    (inp.allow_overtime = false → ∀ n ∈ entityNurses inp, σ.o n = 0) ∧
    (inp.allow_understaff = false → ∀ s ∈ entityShifts inp, σ.u s = 0) := by
  obtain ⟨-, -, -, hcon⟩ := h
  constructor
  · intro hf n hn
    have := hcon _ (noOvertime_mem inp hn hf)
    simpa [constrSat] using this
  · intro hf s hs
    have := hcon _ (noUnderstaff_mem inp hs hf)
    simpa [constrSat] using this

theorem pinning_C5_witness :
    accepts (optimize_schedule_model inpW) σW ∧
    ((inpW.allow_overtime = false → ∀ n ∈ entityNurses inpW, σW.o n = 0) ∧
     (inpW.allow_understaff = false → ∀ s ∈ entityShifts inpW, σW.u s = 0)) :=
  ⟨acceptsW, pinning_C5 inpW σW acceptsW⟩

/-- Claim C6: in every accepted solution the assignment is 0 for every
pair where the shift requires the ICU tier and the nurse is not ICU tier;
moreover a skill constraint is emitted exactly for those pairs, so no
other skill combination is restricted. -/
theorem skill_exclusion_C6 (inp : Inputs) (σ : Solution)
    (h : accepts (optimize_schedule_model inp) σ) :
    (∀ n ∈ entityNurses inp, ∀ s ∈ entityShifts inp,
        pyUpper (shift_skill inp s) = "ICU" → pyUpper (nurse_skill inp n) ≠ "ICU" →
        σ.x n s = 0) ∧
    (∀ n s : String,
        Constr.skill n s ∈ (optimize_schedule_model inp).constraints ↔
          (n ∈ entityNurses inp ∧ s ∈ entityShifts inp ∧
           pyUpper (shift_skill inp s) = "ICU" ∧ pyUpper (nurse_skill inp n) ≠ "ICU")) := by
  obtain ⟨-, -, -, hcon⟩ := h
  constructor
  · intro n hn s hs hreq hnsk
    have hc : skillCond (shift_skill inp s) (nurse_skill inp n) = true :=
      skillCond_iff.mpr ⟨hreq, hnsk⟩
    have := hcon _ (skill_mem inp hn hs hc)
    simpa [constrSat] using this
  · intro n s
    rw [skill_mem_iff, skillCond_iff]

theorem skill_exclusion_C6_witness :
    accepts (optimize_schedule_model inpW) σW ∧
    ((∀ n ∈ entityNurses inpW, ∀ s ∈ entityShifts inpW,
        pyUpper (shift_skill inpW s) = "ICU" → pyUpper (nurse_skill inpW n) ≠ "ICU" →
        σW.x n s = 0) ∧
     (∀ n s : String,
        Constr.skill n s ∈ (optimize_schedule_model inpW).constraints ↔
          (n ∈ entityNurses inpW ∧ s ∈ entityShifts inpW ∧
           pyUpper (shift_skill inpW s) = "ICU" ∧ pyUpper (nurse_skill inpW n) ≠ "ICU"))) :=
  ⟨acceptsW, skill_exclusion_C6 inpW σW acceptsW⟩

/-- Claim C7: every accepted solution satisfies, per nurse, the hour-limit
constraint (assigned hours at most max hours plus overtime) and, per
shift, the coverage constraint (assignments plus unmet demand at least
demand). -/
theorem hour_coverage_C7 (inp : Inputs) (σ : Solution)
    (h : accepts (optimize_schedule_model inp) σ) :
    (∀ n ∈ entityNurses inp,
        ((entityShifts inp).map fun s => shift_hours inp s * σ.x n s).sum
          ≤ nurse_max_hours inp n + σ.o n) ∧
    (∀ s ∈ entityShifts inp,
        shift_demand inp s ≤ ((entityNurses inp).map fun n => σ.x n s).sum + σ.u s) := by
  obtain ⟨-, -, -, hcon⟩ := h
  constructor
  · intro n hn
    have := hcon _ (hourLimit_mem inp hn)
    simpa [constrSat, List.map_map, Function.comp] using this
  · intro s hs
    have := hcon _ (coverage_mem inp hs)
    simpa [constrSat] using this

theorem hour_coverage_C7_witness :
    accepts (optimize_schedule_model inpW) σW ∧
    ((∀ n ∈ entityNurses inpW,
        ((entityShifts inpW).map fun s => shift_hours inpW s * σW.x n s).sum
          ≤ nurse_max_hours inpW n + σW.o n) ∧
     (∀ s ∈ entityShifts inpW,
        shift_demand inpW s ≤
          ((entityNurses inpW).map fun n => σW.x n s).sum + σW.u s)) :=
  ⟨acceptsW, hour_coverage_C7 inpW σW acceptsW⟩

/-- Claim C10: the ICU test is case-insensitive: the guard compares
uppercased strings, is invariant under uppercasing its inputs, and
lowercase or mixed-case spellings of "ICU" behave as the ICU tier on both
the requirement side and the qualification side. -/
theorem icu_case_insensitive_C10 :
    (∀ r k : String, skillCond (pyUpper r) (pyUpper k) = skillCond r k) ∧
    (skillCond "icu" "general" = true ∧ skillCond "Icu" "RN" = true ∧
     skillCond "IcU" "GEN" = true ∧ skillCond "ICU" "icu" = false ∧
     skillCond "ICU" "Icu" = false ∧ skillCond "icu" "IcU" = false) :=
  ⟨skillCond_upper, by decide⟩

/-- A single-nurse, single-shift instance with default configuration. -/
def inpT : Inputs :=
  { nurses_df := [⟨"A", 40, "GENERAL"⟩]
    shifts_df := [⟨"S", 8, 1, "GENERAL"⟩]
    availability_df := [⟨"A", "S", 1⟩] }

/-- A raw solver valuation whose assignment value is the fraction 9/10. -/
def σfrac : Solution := ⟨fun _ _ => 9/10, fun _ => 0, fun _ => 0⟩

/-- A raw solver valuation whose assignment value is 5. -/
def σfive : Solution := ⟨fun _ _ => 5, fun _ => 0, fun _ => 0⟩

/-- A raw valuation reporting −1 for overtime and unmet demand. -/
def σneg : Solution := ⟨fun _ _ => 0, fun _ => -1, fun _ => -1⟩

/-- The all-ones assignment valuation. -/
def σone : Solution := ⟨fun _ _ => 1, fun _ => 0, fun _ => 0⟩

/-- Claim C2 counterexample: at raw value 9/10 the decoder returns 0 even
though the nearest integer is 1 (the spec's decoder rounds it to 1) —
Python `int()` truncates, it does not round — and at raw value 5, far
outside [−ε, 1+ε] (here ε = 1/100), where the spec's decoder signals a
decoding error, the code's decoder instead returns a record with
assigned = 5 and no error. -/
theorem decoding_C2_counterexample :
    extractAssignments (optimize_schedule_model inpT) σfrac = [("A", "S", 0)] ∧
    decodeAssignSpec (1/100) ((9 : ℚ)/10) = some 1 ∧
    extractAssignments (optimize_schedule_model inpT) σfive = [("A", "S", 5)] ∧
    decodeAssignSpec (1/100) (5 : ℚ) = none := by
  refine ⟨?_, by norm_num [decodeAssignSpec, round_eq], ?_,
    by norm_num [decodeAssignSpec]⟩
  · have h1 : pyIntTrunc (9/10) = 0 := by norm_num [pyIntTrunc]
    have h2 : extractAssignments (optimize_schedule_model inpT) σfrac
        = [("A", "S", pyIntTrunc ((9 : ℚ)/10))] := rfl
    rw [h2, h1]
  · have h1 : pyIntTrunc 5 = 5 := by norm_num [pyIntTrunc]
    have h2 : extractAssignments (optimize_schedule_model inpT) σfive
        = [("A", "S", pyIntTrunc (5 : ℚ))] := rfl
    rw [h2, h1]

/-- Claim C2 (amended): the decoder emits, for every (nurse, shift) pair
of the model, a record whose assigned value is the raw solver value
truncated toward zero (Python `int()`) — rounding down any fractional
part of a non-negative value — and performs no domain check: every raw
value, also outside [−ε, 1+ε], yields a record and no error. -/
theorem decoding_truncates_C2 (m : MILP) (σ : Solution) (n s : String)
    (hn : n ∈ m.nurses) (hs : s ∈ m.shifts) :
    (n, s, pyIntTrunc (σ.x n s)) ∈ extractAssignments m σ ∧
    (0 ≤ σ.x n s → pyIntTrunc (σ.x n s) = ⌊σ.x n s⌋) := by
  constructor
  · unfold extractAssignments
    rw [List.mem_flatMap]
    exact ⟨n, hn, List.mem_map.mpr ⟨s, hs, rfl⟩⟩
  · intro h; unfold pyIntTrunc; rw [if_pos h]

theorem decoding_truncates_C2_witness :
    "A" ∈ (optimize_schedule_model inpT).nurses ∧
    "S" ∈ (optimize_schedule_model inpT).shifts ∧
    (("A", "S", pyIntTrunc (σfive.x "A" "S")) ∈
        extractAssignments (optimize_schedule_model inpT) σfive ∧
     (0 ≤ σfive.x "A" "S" → pyIntTrunc (σfive.x "A" "S") = ⌊σfive.x "A" "S"⌋)) :=
  ⟨by decide, by decide,
   decoding_truncates_C2 (optimize_schedule_model inpT) σfive "A" "S"
     (by decide) (by decide)⟩

/-- Claim C4 counterexample: the decoded overtime and unmet-demand values
are not clamped: when the raw variable value is −1 the returned values
are −1, which is negative. -/
theorem unclamped_C4_counterexample :
    extractOvertime (optimize_schedule_model inpT) σneg = [("A", -1)] ∧
    extractUnmet (optimize_schedule_model inpT) σneg = [("S", -1)] ∧
    ((-1 : ℚ) < 0) :=
  ⟨rfl, rfl, by norm_num⟩

/-- Claim C4 (amended): overtime and unmet-demand values are read from
the solver and returned exactly as reported, with no clamping; they are
non-negative only insofar as the valuation respects the variables'
declared lower bounds (which every accepted solution does). -/
theorem unclamped_C4 (m : MILP) (σ : Solution) :
    (∀ n ∈ m.nurses, (n, σ.o n) ∈ extractOvertime m σ) ∧
    (∀ s ∈ m.shifts, (s, σ.u s) ∈ extractUnmet m σ) ∧
    (accepts m σ → (∀ n ∈ m.nurses, 0 ≤ σ.o n) ∧ (∀ s ∈ m.shifts, 0 ≤ σ.u s)) := by
  refine ⟨?_, ?_, ?_⟩
  · intro n hn; exact List.mem_map.mpr ⟨n, hn, rfl⟩
  · intro s hs; exact List.mem_map.mpr ⟨s, hs, rfl⟩
  · intro h; exact ⟨h.2.1, h.2.2.1⟩

theorem unclamped_C4_witness :
    (∀ n ∈ (optimize_schedule_model inpW).nurses,
        (n, σW.o n) ∈ extractOvertime (optimize_schedule_model inpW) σW) ∧
    (∀ s ∈ (optimize_schedule_model inpW).shifts,
        (s, σW.u s) ∈ extractUnmet (optimize_schedule_model inpW) σW) ∧
    (accepts (optimize_schedule_model inpW) σW →
      (∀ n ∈ (optimize_schedule_model inpW).nurses, 0 ≤ σW.o n) ∧
      (∀ s ∈ (optimize_schedule_model inpW).shifts, 0 ≤ σW.u s)) :=
  unclamped_C4 (optimize_schedule_model inpW) σW

/-- Instance `inpT` extended with an availability row naming a nurse "ZZ" that is
absent from the nurses table. -/
def inpRogue : Inputs :=
  { inpT with availability_df := inpT.availability_df ++ [⟨"ZZ", "S", 1⟩] }

/-- Claim C3 counterexample: an availability row referencing the unknown
nurse "ZZ" raises no validation error: model construction proceeds and
builds exactly the same model as without the row, so nothing fails before
(or during) model construction. -/
theorem no_validation_C3_counterexample :
    "ZZ" ∉ inpRogue.nurses_df.map (·.nurse_id) ∧
    optimize_schedule_model inpRogue = optimize_schedule_model inpT :=
  ⟨by decide, rfl⟩

lemma prefGet_append_rogue (inp : Inputs) (pdf : List PreferenceRow) (q : PreferenceRow)
    (hp : inp.preferences_df = some pdf)
    (hq : q.nurse_id ∉ inp.nurses_df.map (·.nurse_id) ∨
          q.shift_id ∉ inp.shifts_df.map (·.shift_id))
    {n s : String} (hn : n ∈ entityNurses inp) (hs : s ∈ entityShifts inp) :
    prefGet { inp with preferences_df := some (pdf ++ [q]) } n s = prefGet inp n s := by
  have hkey : ((q.nurse_id, q.shift_id), q.score).1 ≠ (n, s) := by
    intro he
    rw [Prod.mk.injEq] at he
    rcases hq with h | h
    · exact h (he.1 ▸ mem_entityNurses hn)
    · exact h (he.2 ▸ mem_entityShifts hs)
  rcases pdf with _ | ⟨p, t⟩
  · have e1 : preference_lookup inp = [] := by
      unfold preference_lookup; rw [hp]
      rfl
    have e2 : preference_lookup { inp with preferences_df := some ([] ++ [q]) }
        = if inp.preference_weight = 0 then []
          else [((q.nurse_id, q.shift_id), q.score)] := rfl
    unfold prefGet
    rw [e1, e2]
    by_cases hw : inp.preference_weight = 0
    · rw [if_pos hw]
    · rw [if_neg hw]
      rw [dictGetP_eq_none fun p hp2 => by
        rw [List.mem_singleton] at hp2; subst hp2; exact hkey]
      rfl
  · have e1 : preference_lookup inp
        = if inp.preference_weight = 0 then []
          else (p :: t).map fun r => ((r.nurse_id, r.shift_id), r.score) := by
      unfold preference_lookup; rw [hp]
      rfl
    have e2 : preference_lookup { inp with preferences_df := some ((p :: t) ++ [q]) }
        = if inp.preference_weight = 0 then []
          else ((p :: t) ++ [q]).map fun r => ((r.nurse_id, r.shift_id), r.score) := rfl
    unfold prefGet
    rw [e1, e2]
    by_cases hw : inp.preference_weight = 0
    · rw [if_pos hw, if_pos hw]
    · rw [if_neg hw, if_neg hw]
      have hmap : ((p :: t) ++ [q]).map (fun r => ((r.nurse_id, r.shift_id), r.score))
          = ((p :: t).map fun r => ((r.nurse_id, r.shift_id), r.score))
            ++ [((q.nurse_id, q.shift_id), q.score)] := by
        rw [List.map_append]
        rfl
      rw [hmap, dictGetP_append_single hkey]

/-- Claim C3 (amended): `optimize_schedule` performs no identifier
validation: an availability row — or a preference row — whose nurse or
shift identifier does not appear in the nurses/shifts tables is silently
ignored: the model built is identical with or without the row, and
nothing fails before model construction. -/
theorem no_validation_C3 (inp : Inputs) (r : AvailabilityRow) (q : PreferenceRow)
    (pdf : List PreferenceRow)
    (hr : r.nurse_id ∉ inp.nurses_df.map (·.nurse_id) ∨
          r.shift_id ∉ inp.shifts_df.map (·.shift_id))
    (hq : q.nurse_id ∉ inp.nurses_df.map (·.nurse_id) ∨
          q.shift_id ∉ inp.shifts_df.map (·.shift_id))
    (hp : inp.preferences_df = some pdf) :
    optimize_schedule_model
        { inp with availability_df := inp.availability_df ++ [r] }
      = optimize_schedule_model inp ∧
    optimize_schedule_model
        { inp with preferences_df := some (pdf ++ [q]) }
      = optimize_schedule_model inp := by
  constructor
  · have havail : ∀ n ∈ entityNurses inp, ∀ s ∈ entityShifts inp,
        availGet { inp with availability_df := inp.availability_df ++ [r] } n s
          = availGet inp n s := by
      intro n hn s hs
      have hkey : ((r.nurse_id, r.shift_id), pyIntTrunc r.available).1 ≠ (n, s) := by
        intro he
        rw [Prod.mk.injEq] at he
        rcases hr with h | h
        · exact h (he.1 ▸ mem_entityNurses hn)
        · exact h (he.2 ▸ mem_entityShifts hs)
      unfold availGet
      have hlk : availability_lookup { inp with availability_df := inp.availability_df ++ [r] }
          = availability_lookup inp ++ [((r.nurse_id, r.shift_id), pyIntTrunc r.available)] := by
        unfold availability_lookup
        exact List.map_append _ _ _
      rw [hlk, dictGetP_append_single hkey]
    unfold optimize_schedule_model
    have hconstr : availSkillConstraints { inp with availability_df := inp.availability_df ++ [r] }
        = availSkillConstraints inp := by
      unfold availSkillConstraints
      apply List.flatMap_congr
      intro n hn
      apply List.flatMap_congr
      intro s hs
      rw [havail n hn s hs]
      rfl
    rw [hconstr]
    rfl
  · have hobj : objectiveOf { inp with preferences_df := some (pdf ++ [q]) }
        = objectiveOf inp := by
      unfold objectiveOf
      congr 1
      apply List.flatMap_congr
      intro n hn
      apply List.filterMap_congr
      intro s hs
      rw [prefGet_append_rogue inp pdf q hp hq hn hs]
    unfold optimize_schedule_model
    rw [hobj]
    rfl

/-- Instance `inpT` with a preference table and weight attached. -/
def inpP : Inputs :=
  { inpT with preference_weight := 2, preferences_df := some [⟨"A", "S", 2⟩] }

theorem no_validation_C3_witness :
    (("ZZ" : String) ∉ inpP.nurses_df.map (·.nurse_id) ∨
     ("S2" : String) ∉ inpP.shifts_df.map (·.shift_id)) ∧
    (("QQ" : String) ∉ inpP.nurses_df.map (·.nurse_id) ∨
     ("S" : String) ∉ inpP.shifts_df.map (·.shift_id)) ∧
    inpP.preferences_df = some [⟨"A", "S", 2⟩] ∧
    (optimize_schedule_model
        { inpP with availability_df := inpP.availability_df ++ [⟨"ZZ", "S2", 1⟩] }
      = optimize_schedule_model inpP ∧
     optimize_schedule_model
        { inpP with preferences_df := some ([⟨"A", "S", 2⟩] ++ [⟨"QQ", "S", 3⟩]) }
      = optimize_schedule_model inpP) :=
  ⟨Or.inl (by decide), Or.inl (by decide), rfl,
   no_validation_C3 inpP ⟨"ZZ", "S2", 1⟩ ⟨"QQ", "S", 3⟩ [⟨"A", "S", 2⟩]
     (Or.inl (by decide)) (Or.inl (by decide)) rfl⟩

/-- Instance whose availability cell holds −1, a nonzero value. -/
def inpNeg : Inputs :=
  { nurses_df := [⟨"A", 40, "GENERAL"⟩]
    shifts_df := [⟨"S", 8, 1, "GENERAL"⟩]
    availability_df := [⟨"A", "S", -1⟩] }

/-- Claim C9 counterexample: the coerced availability value −1 is a
nonzero integer, yet it does not make the pair available: the emitted
constraint is `x ≤ −1`, which assignment value 1 violates (and even value
0 violates), so a nonzero coerced value does not suffice. -/
theorem availability_nonzero_C9_counterexample :
    availGet inpNeg "A" "S" = -1 ∧
    Constr.availability "A" "S" (-1) ∈ (optimize_schedule_model inpNeg).constraints ∧
    ¬ constrSat σone (Constr.availability "A" "S" (-1)) ∧
    ¬ constrSat σneg (Constr.availability "A" "S" (-1)) := by
  have hget : availGet inpNeg "A" "S" = -1 := by
    have h1 : pyIntTrunc (-1) = -1 := by
      rw [pyIntTrunc, if_neg (by norm_num),
        show ((-1 : ℚ)) = ((-1 : ℤ) : ℚ) by norm_num, Int.ceil_intCast]
    have h2 : availGet inpNeg "A" "S" = pyIntTrunc (-1 : ℚ) := rfl
    rw [h2, h1]
  refine ⟨hget, ?_, ?_, ?_⟩
  · have := availability_mem inpNeg (n := "A") (s := "S") (by decide) (by decide)
    rwa [hget] at this
  · simp only [constrSat, σone]
    norm_num
  · simp only [constrSat, σneg]
    norm_num

/-- Claim C9 (amended): the `available` cell is coerced to an integer with
Python `int()` and the emitted constraint is
`Assignment(n,s) ≤ available(n,s)`; together with the binary bound it
permits assignment value 1 exactly when the coerced value is ≥ 1 — so any
coerced value ≥ 1 (not only 1) makes the pair available, while values
≤ 0, including nonzero negative ones, forbid it. -/
theorem availability_nonzero_C9 (inp : Inputs) (n s : String)
    (hn : n ∈ entityNurses inp) (hs : s ∈ entityShifts inp) :
    Constr.availability n s (availGet inp n s) ∈
      (optimize_schedule_model inp).constraints ∧
    (∀ σ : Solution, σ.x n s = 1 →
      (constrSat σ (Constr.availability n s (availGet inp n s)) ↔
        1 ≤ availGet inp n s)) := by
  refine ⟨availability_mem inp hn hs, ?_⟩
  intro σ hx
  simp only [constrSat, hx]
  norm_cast

theorem availability_nonzero_C9_witness :
    ("A" ∈ entityNurses inpW ∧ "S1" ∈ entityShifts inpW) ∧
    (Constr.availability "A" "S1" (availGet inpW "A" "S1") ∈
        (optimize_schedule_model inpW).constraints ∧
     (∀ σ : Solution, σ.x "A" "S1" = 1 →
        (constrSat σ (Constr.availability "A" "S1" (availGet inpW "A" "S1")) ↔
          1 ≤ availGet inpW "A" "S1"))) :=
  ⟨⟨by decide, by decide⟩,
   availability_nonzero_C9 inpW "A" "S1" (by decide) (by decide)⟩

lemma sum_flatMapQ {α : Type} (l : List α) (f : α → List ℚ) :
    (l.flatMap f).sum = (l.map fun a => (f a).sum).sum := by
  induction l with
  | nil => rfl
  | cons a t ih => simp [List.flatMap_cons, List.sum_append, ih]

lemma sum_map_negQ {α : Type} (l : List α) (f : α → ℚ) :
    (l.map fun a => -(f a)).sum = -((l.map f).sum) := by
  induction l with
  | nil => simp
  | cons a t ih => simp [ih]; ring

lemma prefGet_none {inp : Inputs} (h : inp.preferences_df = none) (n s : String) :
    prefGet inp n s = 0 := by
  unfold prefGet preference_lookup
  rw [h]
  rfl

/-- Claim C8: the minimized objective equals
Σ_n overtime_cost·OvertimeHours(n) + Σ_s understaff_penalty·UnmetDemand(s)
− Σ_{n,s} preference_weight·preference(n,s)·Assignment(n,s), where a pair
absent from the preference lookup scores 0; and when the preference
weight is 0 or no preference table is supplied, no assignment term occurs
in the objective expression at all — the reward term is omitted entirely,
not merely given zero coefficients. -/
theorem objective_C8 (inp : Inputs) (σ : Solution) :
    objValue (optimize_schedule_model inp) σ =
      ((entityNurses inp).map fun n => inp.overtime_cost * σ.o n).sum
      + ((entityShifts inp).map fun s => inp.understaff_penalty * σ.u s).sum
      - ((entityNurses inp).map fun n =>
          ((entityShifts inp).map fun s =>
            inp.preference_weight * prefGet inp n s * σ.x n s).sum).sum ∧
    ((inp.preference_weight = 0 ∨ inp.preferences_df = none) →
      ∀ (c : ℚ) (n s : String),
        ObjTerm.assign c n s ∉ (optimize_schedule_model inp).objective) := by
  constructor
  · show ((objectiveOf inp).map (termValue σ)).sum = _
    unfold objectiveOf
    rw [List.map_append, List.map_append, List.sum_append, List.sum_append]
    have hA : (((entityNurses inp).filterMap fun n =>
          if inp.overtime_cost = 0 then none
          else some (ObjTerm.overtime inp.overtime_cost n)).map (termValue σ)).sum
        = ((entityNurses inp).map fun n => inp.overtime_cost * σ.o n).sum := by
      rw [List.map_filterMap]
      have he : ∀ n, Option.map (termValue σ)
            (if inp.overtime_cost = 0 then none
             else some (ObjTerm.overtime inp.overtime_cost n))
          = if inp.overtime_cost = 0 then none
            else some (inp.overtime_cost * σ.o n) := by
        intro n; split <;> rfl
      simp only [he]
      exact sum_filterMap_eq_sum_map _ _ _ (fun a _ hz => by rw [hz, zero_mul])
    have hB : (((entityShifts inp).filterMap fun s =>
          if inp.understaff_penalty = 0 then none
          else some (ObjTerm.unmet inp.understaff_penalty s)).map (termValue σ)).sum
        = ((entityShifts inp).map fun s => inp.understaff_penalty * σ.u s).sum := by
      rw [List.map_filterMap]
      have he : ∀ s, Option.map (termValue σ)
            (if inp.understaff_penalty = 0 then none
             else some (ObjTerm.unmet inp.understaff_penalty s))
          = if inp.understaff_penalty = 0 then none
            else some (inp.understaff_penalty * σ.u s) := by
        intro s; split <;> rfl
      simp only [he]
      exact sum_filterMap_eq_sum_map _ _ _ (fun a _ hz => by rw [hz, zero_mul])
    have hC : (((entityNurses inp).flatMap fun n =>
          (entityShifts inp).filterMap fun s =>
            if inp.preference_weight * prefGet inp n s = 0 then none
            else some (ObjTerm.assign (-(inp.preference_weight * prefGet inp n s)) n s)).map
            (termValue σ)).sum
        = -(((entityNurses inp).map fun n =>
            ((entityShifts inp).map fun s =>
              inp.preference_weight * prefGet inp n s * σ.x n s).sum).sum) := by
      rw [List.map_flatMap, sum_flatMapQ]
      have hinner : ∀ n, (((entityShifts inp).filterMap fun s =>
            if inp.preference_weight * prefGet inp n s = 0 then none
            else some (ObjTerm.assign (-(inp.preference_weight * prefGet inp n s)) n s)).map
            (termValue σ)).sum
          = -(((entityShifts inp).map fun s =>
              inp.preference_weight * prefGet inp n s * σ.x n s).sum) := by
        intro n
        rw [List.map_filterMap]
        have he : ∀ s, Option.map (termValue σ)
              (if inp.preference_weight * prefGet inp n s = 0 then none
               else some (ObjTerm.assign (-(inp.preference_weight * prefGet inp n s)) n s))
            = if inp.preference_weight * prefGet inp n s = 0 then none
              else some (-(inp.preference_weight * prefGet inp n s * σ.x n s)) := by
          intro s
          split
          · rfl
          · show some (-(inp.preference_weight * prefGet inp n s) * σ.x n s) = _
            rw [neg_mul]
        simp only [he]
        rw [sum_filterMap_eq_sum_map _ _ _
          (fun a _ hz => by rw [hz, zero_mul, neg_zero])]
        exact sum_map_negQ _ _
      simp only [hinner]
      exact sum_map_negQ _ _
    rw [hA, hB, hC, sub_eq_add_neg]
  · intro hz c n s hmem
    simp only [optimize_schedule_model] at hmem
    unfold objectiveOf at hmem
    rw [List.mem_append, List.mem_append] at hmem
    have hzero : ∀ n s, inp.preference_weight * prefGet inp n s = 0 := by
      rcases hz with hw | hp
      · intro n s; rw [hw, zero_mul]
      · intro n s; rw [prefGet_none hp, mul_zero]
    rcases hmem with (h | h) | h
    · rw [List.mem_filterMap] at h
      obtain ⟨a, -, ha⟩ := h
      by_cases hc : inp.overtime_cost = 0
      · rw [if_pos hc] at ha; exact Option.noConfusion ha
      · rw [if_neg hc] at ha
        exact ObjTerm.noConfusion (Option.some.inj ha)
    · rw [List.mem_filterMap] at h
      obtain ⟨a, -, ha⟩ := h
      by_cases hc : inp.understaff_penalty = 0
      · rw [if_pos hc] at ha; exact Option.noConfusion ha
      · rw [if_neg hc] at ha
        exact ObjTerm.noConfusion (Option.some.inj ha)
    · rw [List.mem_flatMap] at h
      obtain ⟨a, -, h⟩ := h
      rw [List.mem_filterMap] at h
      obtain ⟨b, -, hb⟩ := h
      rw [if_pos (hzero a b)] at hb
      exact Option.noConfusion hb

theorem objective_C8_witness :
    (inpT.preference_weight = 0 ∨ inpT.preferences_df = none) ∧
    ObjTerm.assign 3 "A" "S" ∉ (optimize_schedule_model inpT).objective :=
  ⟨Or.inl rfl, (objective_C8 inpT σone).2 (Or.inl rfl) 3 "A" "S"⟩
